import Mathlib

/-!
Verification development for the poly-weather trading engine.

The Python sources are shallowly embedded: `float` arithmetic is modelled by
exact rationals (`ℚ`), Python's `round` builtin (banker's rounding,
round-half-to-even) by `pyRound`, dictionaries by association lists, and
string identifiers by natural numbers except where the string content matters
(`TemperatureRange.from_label`, which works on `List Char`).  Wall-clock
dependent quantities (`datetime.now()`) are abstracted into explicit
`days_until` parameters, as every modelled function consumes time only
through `days_until_target()`.
-/

namespace PolyWeather

/-- Python's builtin `round` on a rational: round half to even. -/
def pyRound (q : ℚ) : ℤ :=
  if q - ⌊q⌋ < 1/2 then ⌊q⌋
  else if 1/2 < q - ⌊q⌋ then ⌊q⌋ + 1
  else if 2 ∣ ⌊q⌋ then ⌊q⌋ else ⌊q⌋ + 1

lemma pyRound_le (q : ℚ) : (pyRound q : ℚ) ≤ q + 1/2 := by
  have hf : (⌊q⌋ : ℚ) ≤ q := Int.floor_le q
  unfold pyRound
  split_ifs with h1 h2 h3 <;> push_cast <;> linarith

lemma le_pyRound (q : ℚ) : q - 1/2 ≤ (pyRound q : ℚ) := by
  have hf : q < ⌊q⌋ + 1 := Int.lt_floor_add_one q
  unfold pyRound
  split_ifs with h1 h2 h3 <;> push_cast <;> linarith

lemma pyRound_intCast (n : ℤ) : pyRound (n : ℚ) = n := by
  unfold pyRound
  rw [Int.floor_intCast, sub_self]
  norm_num

lemma pyRound_mono {a b : ℚ} (hab : a ≤ b) : pyRound a ≤ pyRound b := by
  rcases lt_or_le ⌊a⌋ ⌊b⌋ with hlt | hle
  · have h1 : pyRound a ≤ ⌊a⌋ + 1 := by
      unfold pyRound; split_ifs <;> omega
    have h2 : ⌊b⌋ ≤ pyRound b := by
      unfold pyRound; split_ifs <;> omega
    omega
  · have hfl : ⌊a⌋ ≤ ⌊b⌋ := Int.floor_le_floor hab
    have heq : ⌊a⌋ = ⌊b⌋ := le_antisymm hfl hle
    have heqQ : ((⌊a⌋ : ℤ) : ℚ) = ((⌊b⌋ : ℤ) : ℚ) := by exact_mod_cast heq
    unfold pyRound
    split_ifs with h1 h2 h3 h4 h5 h6 h7 h8 h9 h10 h11 h12 h13 <;>
      first
        | omega
        | (exfalso; linarith)

/-- `helpers.round_to_nearest(value, nearest)`: `round(value / nearest) * nearest`. -/
def round_to_nearest (value : ℚ) (nearest : ℚ) : ℚ :=
  (pyRound (value / nearest) : ℚ) * nearest

/-- Python's `round(x, 2)` (as used in `_calculate_position_size`):
round to two decimal places with banker's rounding. -/
def round2 (x : ℚ) : ℚ :=
  (pyRound (x * 100) : ℚ) / 100

lemma round2_mono {a b : ℚ} (hab : a ≤ b) : round2 a ≤ round2 b := by
  unfold round2
  have h : pyRound (a * 100) ≤ pyRound (b * 100) := pyRound_mono (by linarith)
  have h' : ((pyRound (a * 100) : ℤ) : ℚ) ≤ ((pyRound (b * 100) : ℤ) : ℚ) := by
    exact_mod_cast h
  linarith

lemma round2_le (x : ℚ) : round2 x ≤ x + 1/200 := by
  unfold round2
  have h := pyRound_le (x * 100)
  linarith

lemma round2_intCast (n : ℤ) : round2 (n : ℚ) = n := by
  unfold round2
  have h : ((n : ℚ)) * 100 = ((n * 100 : ℤ) : ℚ) := by push_cast; ring
  rw [h, pyRound_intCast]
  push_cast
  ring

lemma round2_nonpos {x : ℚ} (hx : x ≤ 0) : round2 x ≤ 0 := by
  have h := round2_mono hx
  have h0 : round2 (0 : ℚ) = 0 := by
    have := round2_intCast 0
    simpa using this
  linarith

lemma round_to_nearest_hundredth (x : ℚ) :
    round_to_nearest x (1/100) = (pyRound (x * 100) : ℚ) / 100 := by
  unfold round_to_nearest
  have h : x / (1/100) = x * 100 := by ring
  rw [h]
  ring

lemma round_to_nearest_hundredth_mono {a b : ℚ} (hab : a ≤ b) :
    round_to_nearest a (1/100) ≤ round_to_nearest b (1/100) := by
  rw [round_to_nearest_hundredth, round_to_nearest_hundredth]
  have h : pyRound (a * 100) ≤ pyRound (b * 100) := pyRound_mono (by linarith)
  have h' : ((pyRound (a * 100) : ℤ) : ℚ) ≤ ((pyRound (b * 100) : ℤ) : ℚ) := by
    exact_mod_cast h
  linarith

/-! ## Regular-expression search primitives for `TemperatureRange.from_label`

`from_label` tests its label against three `re.search` patterns.  We model a
regex match nondeterministically: each token-consumer maps a character list to
the list of all possible remainders, and `re.search(p, s)` truthiness becomes
"some suffix of `s` admits a match of `p` at its front". -/

/-- Remainders after consuming one or more digits. -/
def digitPlus : List Char → List (List Char)
  | [] => []
  | c :: rest => if c.isDigit then rest :: digitPlus rest else []

/-- Remainders after consuming zero or more digits. -/
def digitStar : List Char → List (List Char)
  | [] => [[]]
  | c :: rest => (c :: rest) :: (if c.isDigit then digitStar rest else [])

/-- Remainders after consuming zero or more whitespace characters. -/
def wsStar : List Char → List (List Char)
  | [] => [[]]
  | c :: rest => (c :: rest) :: (if c.isWhitespace then wsStar rest else [])

/-- Remainders after consuming one or more whitespace characters. -/
def wsPlus : List Char → List (List Char)
  | [] => []
  | c :: rest => if c.isWhitespace then rest :: wsPlus rest else []

/-- Remainders after optionally consuming the single character `c`. -/
def optChar (c : Char) (l : List Char) : List (List Char) :=
  l :: (match l with
        | c' :: r => if c' = c then [r] else []
        | [] => [])

/-- Remainders after the numeral token regex fragment `\d+\.?\d*`. -/
def numTok (l : List Char) : List (List Char) :=
  ((digitPlus l).flatMap (optChar '.')).flatMap digitStar

/-- Consume the literal `s` (given lowercase) case-insensitively. -/
def litCI : List Char → List Char → Option (List Char)
  | [], l => some l
  | _ :: _, [] => none
  | c :: s, c' :: l => if c'.toLower = c then litCI s l else none

/-- Remainders after the optional literal fragment `(?:°F)?` (case-insensitive). -/
def optDegF (l : List Char) : List (List Char) :=
  l :: (match l with
        | c1 :: c2 :: r => if c1 = '°' ∧ c2.toLower = 'f' then [r] else []
        | _ => [])

/-- A match of the range pattern `(\d+\.?\d*)\s*-\s*(\d+\.?\d*)` starts here. -/
def rangeAt (l : List Char) : Bool :=
  ((numTok l).flatMap wsStar).any fun r =>
    match r with
    | '-' :: r2 => (wsStar r2).any fun r3 => !(numTok r3).isEmpty
    | _ => false

/-- A match of `(\d+\.?\d*)\s*(?:°F)?\s*or\s+(?:higher|above)` (ignoring case)
starts here. -/
def higherAt (l : List Char) : Bool :=
  ((((numTok l).flatMap wsStar).flatMap optDegF).flatMap wsStar).any fun r =>
    match litCI ['o', 'r'] r with
    | some r2 => (wsPlus r2).any fun r3 =>
        (litCI ['h', 'i', 'g', 'h', 'e', 'r'] r3).isSome ||
        (litCI ['a', 'b', 'o', 'v', 'e'] r3).isSome
    | none => false

/-- A match of `(\d+\.?\d*)\s*(?:°F)?\s*or\s+(?:lower|below)` (ignoring case)
starts here. -/
def lowerAt (l : List Char) : Bool :=
  ((((numTok l).flatMap wsStar).flatMap optDegF).flatMap wsStar).any fun r =>
    match litCI ['o', 'r'] r with
    | some r2 => (wsPlus r2).any fun r3 =>
        (litCI ['l', 'o', 'w', 'e', 'r'] r3).isSome ||
        (litCI ['b', 'e', 'l', 'o', 'w'] r3).isSome
    | none => false

/-- `re.search` position scan: the first suffix where `p` matches, if any. -/
def firstMatchPos (p : List Char → Bool) : List Char → Option (List Char)
  | [] => if p [] then some [] else none
  | c :: rest => if p (c :: rest) then some (c :: rest) else firstMatchPos p rest

/-- Numeric value of a digit string. -/
def natOfDigits (ds : List Char) : ℕ :=
  ds.foldl (fun a c => a * 10 + (c.toNat - '0'.toNat)) 0

/-- `float(...)` of the numeral `\d+\.?\d*` at the front of `l` (greedy), with
the remainder.  At a match position the regex groups are exactly the greedy
numerals, since no following fragment can consume a digit or a dot. -/
def parseNumber (l : List Char) : ℚ × List Char :=
  let ds := l.takeWhile Char.isDigit
  let r1 := l.dropWhile Char.isDigit
  match r1 with
  | '.' :: r2 =>
      let fs := r2.takeWhile Char.isDigit
      ((natOfDigits ds : ℚ) + (natOfDigits fs : ℚ) / 10 ^ fs.length,
       r2.dropWhile Char.isDigit)
  | _ => ((natOfDigits ds : ℚ), r1)

/-- From a range-pattern match position: skip group 1, `\s*`, the dash and
`\s*`, arriving at group 2. -/
def afterDash (l : List Char) : Option (List Char) :=
  let r1 := (parseNumber l).2
  match r1.dropWhile Char.isWhitespace with
  | '-' :: r3 => some (r3.dropWhile Char.isWhitespace)
  | _ => none

/-- Python `str.strip()`. -/
def stripWs (l : List Char) : List Char :=
  ((l.dropWhile Char.isWhitespace).reverse.dropWhile Char.isWhitespace).reverse

/-! ## Data model (`src/models/market.py`, `src/models/trade.py`) -/

/-- `TemperatureRange` (`market.py`).  The unit field is omitted: every
modelled code path uses Fahrenheit. -/
structure TemperatureRange where
  label : List Char
  min_temp : Option ℚ := none
  max_temp : Option ℚ := none
  deriving DecidableEq

/-- `TemperatureRange.contains` (`market.py` lines 32-46). -/
def TemperatureRange.contains (r : TemperatureRange) (temp : ℚ) : Bool :=
  if r.min_temp.any (fun m => decide (temp < m)) then false
  else if r.max_temp.any (fun M => decide (M < temp)) then false
  else true

/-- `TemperatureRange.from_label` (`market.py` lines 51-90): try the range
pattern, then "or higher", then "or lower"; if nothing matches return a range
holding just the label with both bounds `None`. -/
def TemperatureRange.from_label (label0 : List Char) : TemperatureRange :=
  let label := stripWs label0
  match firstMatchPos rangeAt label with
  | some pos =>
      let max_t : ℚ := match afterDash pos with
        | some p2 => (parseNumber p2).1
        | none => 0
      ⟨label, some (parseNumber pos).1, some max_t⟩
  | none =>
    match firstMatchPos higherAt label with
    | some pos => ⟨label, some (parseNumber pos).1, none⟩
    | none =>
      match firstMatchPos lowerAt label with
      | some pos => ⟨label, none, some (parseNumber pos).1⟩
      | none => ⟨label, none, none⟩

/-- `PolymarketOutcome` (`market.py`): the fields the strategies read.  Token
identifiers are abstracted to naturals. -/
structure PolymarketOutcome where
  token_id : ℕ
  price : ℚ
  temperature_range : TemperatureRange
  deriving DecidableEq

/-- `TemperatureMarket` (`market.py`): identifier and ordered outcome list. -/
structure TemperatureMarket where
  market_id : ℕ
  outcomes : List PolymarketOutcome
  deriving DecidableEq

/-- `TemperatureMarket.get_outcome_by_token_id` (`market.py` lines 141-146):
first outcome with the given token id. -/
def TemperatureMarket.get_outcome_by_token_id (m : TemperatureMarket)
    (token_id : ℕ) : Option PolymarketOutcome :=
  m.outcomes.find? fun o => o.token_id == token_id

/-- `TemperatureMarket.get_outcome_by_temperature` (`market.py` lines 148-161):
first outcome whose range contains the temperature. -/
def TemperatureMarket.get_outcome_by_temperature (m : TemperatureMarket)
    (temp : ℚ) : Option PolymarketOutcome :=
  m.outcomes.find? fun o => o.temperature_range.contains temp

/-- `WeatherForecast` (`market.py`): the fields the strategies read. -/
structure WeatherForecast where
  max_temperature : ℚ
  confidence : ℚ
  deriving DecidableEq

/-- `OrderSide` (`trade.py`). -/
inductive OrderSide where
  | BUY
  | SELL
  deriving DecidableEq

/-- `OrderType` (`trade.py`). -/
inductive OrderType where
  | MARKET
  | LIMIT
  deriving DecidableEq

/-- `Order` (`trade.py`): the fields set at creation by the strategies. -/
structure Order where
  market_id : ℕ
  outcome_id : ℕ
  side : OrderSide
  size : ℚ
  price : ℚ
  order_type : OrderType
  deriving DecidableEq

/-- `Position` (`trade.py`). -/
structure Position where
  market_id : ℕ
  outcome_id : ℕ
  shares : ℚ
  avg_entry_price : ℚ
  current_price : ℚ
  deriving DecidableEq

/-- `Position.current_value` (`trade.py` lines 113-115). -/
def Position.current_value (p : Position) : ℚ :=
  p.shares * p.current_price

/-! ## Position-taker strategy (`src/strategies/position_taker.py`) -/

/-- `helpers.calculate_kelly_criterion` (`helpers.py` lines 183-203). -/
def calculate_kelly_criterion (edge odds : ℚ) (fraction : ℚ) : ℚ :=
  if odds ≤ 1 ∨ edge ≤ 0 then 0
  else max 0 (min 1 (edge / (odds - 1) * fraction))

/-- The configuration fields of `PositionTakerStrategy`, with the constructor
defaults. -/
structure PositionTakerStrategy where
  max_position_size : ℚ := 100
  max_exposure_per_market : ℚ := 200
  min_edge : ℚ := 1/20
  kelly_fraction : ℚ := 1/4
  advance_days : ℤ := 3
  deriving DecidableEq

/-- `PositionTakerStrategy._calculate_position_size` (`position_taker.py` lines
181-244).  `self.client.get_balance()` is passed in as `balance`; `days_ahead`
is a natural, as both call sites guard `days_until ≥ 0` first. -/
def PositionTakerStrategy.calculate_position_size (s : PositionTakerStrategy)
    (balance : ℚ) (edge confidence : ℚ) (days_ahead : ℕ)
    (current_exposure : ℚ) : ℚ :=
  if confidence ≤ 0 ∨ 1 ≤ confidence then 0
  else
    let our_prob := confidence
    let implied_odds := if 0 < our_prob then 1 / our_prob else 1
    let kelly_fraction_result :=
      calculate_kelly_criterion edge implied_odds s.kelly_fraction
    let kelly_size := balance * kelly_fraction_result
    let size1 := min kelly_size s.max_position_size
    let remaining_exposure := s.max_exposure_per_market - current_exposure
    let size2 := min size1 remaining_exposure
    let days_scaling := max (1/2) (1 - (days_ahead : ℚ) * (1/10))
    let size3 := size2 * days_scaling
    max 0 (round2 size3)

/-- `PositionTakerStrategy.should_adjust_position` (`position_taker.py` lines
264-315): if the forecast temperature left the range backing the position,
emit a market sell of the position's full USDC notional. -/
def PositionTakerStrategy.should_adjust_position (_s : PositionTakerStrategy)
    (position : Position) (market : TemperatureMarket)
    (forecast : WeatherForecast) : Option Order :=
  match market.get_outcome_by_token_id position.outcome_id with
  | none => none
  | some current_outcome =>
    if current_outcome.temperature_range.contains forecast.max_temperature then
      none
    else
      some { market_id := position.market_id
             outcome_id := position.outcome_id
             side := OrderSide.SELL
             size := position.shares * position.current_price
             price := position.current_price
             order_type := OrderType.MARKET }

/-! ## Market-maker strategy (`src/strategies/market_maker.py`) -/

/-- The configuration fields of `MarketMakerStrategy`, with the constructor
defaults. -/
structure MarketMakerStrategy where
  min_spread : ℚ := 1/50
  base_size : ℚ := 50
  max_inventory : ℚ := 500
  inventory_skew_threshold : ℚ := 7/10
  max_daily_loss : ℚ := 50
  deriving DecidableEq

/-- `MarketMakerStrategy.calculate_fair_value` (`market_maker.py` lines
77-110). -/
def MarketMakerStrategy.calculate_fair_value (_s : MarketMakerStrategy)
    (outcome : PolymarketOutcome) (forecast : WeatherForecast) : ℚ :=
  let predicted_temp := forecast.max_temperature
  let confidence := forecast.confidence
  let fair_value :=
    if outcome.temperature_range.contains predicted_temp then confidence
    else outcome.price * (1 - confidence * (1/2))
  max (1/100) (min (99/100) fair_value)

/-- `MarketMakerStrategy.calculate_quotes` (`market_maker.py` lines 112-161). -/
def MarketMakerStrategy.calculate_quotes (s : MarketMakerStrategy)
    (fair_value spread : ℚ) (inventory_level : ℚ) : ℚ × ℚ :=
  let half_spread := spread / 2
  let base_bid := fair_value - half_spread
  let base_ask := fair_value + half_spread
  let inventory_adjustment := inventory_level * half_spread
  let bid := base_bid - inventory_adjustment
  let ask := base_ask - inventory_adjustment
  let mid := (bid + ask) / 2
  let bid1 := if ask ≤ bid then mid - s.min_spread / 2 else bid
  let ask1 := if ask ≤ bid then mid + s.min_spread / 2 else ask
  let bid2 := max (1/100) (min (49/50) bid1)
  let ask2 := max (1/50) (min (99/100) ask1)
  let ask3 := if ask2 ≤ bid2 then bid2 + s.min_spread else ask2
  (round_to_nearest bid2 (1/100), round_to_nearest ask3 (1/100))

/-- `MarketMakerStrategy.get_inventory_level` (`market_maker.py` lines
163-182).  `self.inventory` is passed in as an association list. -/
def MarketMakerStrategy.get_inventory_level (s : MarketMakerStrategy)
    (inventory : List (ℕ × ℚ)) (outcome_id : ℕ) : ℚ :=
  let current_inventory := ((inventory.lookup outcome_id).getD 0)
  if s.max_inventory = 0 then 0
  else max (-1) (min 1 (current_inventory / s.max_inventory))

/-- `MarketMakerStrategy.check_circuit_breakers` (`market_maker.py` lines
293-332).  The mutable pieces of `self` that the method reads or writes are
passed and returned explicitly: the result is `(return value, new stopped
flag, new daily_pnl)`.  In the source the inventory scan can only log an alert
and `return False` early, leaving `stopped` untouched. -/
def MarketMakerStrategy.check_circuit_breakers (s : MarketMakerStrategy)
    (current_balance : ℚ) (positions : List Position)
    (session_start_balance : ℚ) (inventory : List (ℕ × ℚ))
    (stopped : Bool) : Bool × Bool × ℚ :=
  let position_value := (positions.map Position.current_value).sum
  let total_value := current_balance + position_value
  let daily_pnl := total_value - session_start_balance
  if daily_pnl < -s.max_daily_loss then (true, true, daily_pnl)
  else if inventory.any (fun p => s.max_inventory < p.2) then
    (false, stopped, daily_pnl)
  else (false, stopped, daily_pnl)

/-! ## Real-time monitor (`src/utils/realtime_monitor.py`) -/

/-- `RealtimeMonitor.detect_max_change` (`realtime_monitor.py` lines 103-141).
The only state the method reads or writes is `self.previous_max`; it is passed
in and the updated value returned alongside the boolean result. -/
def detect_max_change : Option ℚ → ℚ → ℚ → Bool × Option ℚ
  | none, new_max, _ => (false, some new_max)
  | some prev, new_max, threshold =>
      if threshold ≤ |new_max - prev| then (true, some new_max)
      else (false, some prev)

/-- Folding `detect_max_change` over a whole sequence of observed maxima,
starting from a given `previous_max` state: returns the list of boolean
results and the final state. -/
def detectRun (threshold : ℚ) : Option ℚ → List ℚ → List Bool × Option ℚ
  | st, [] => ([], st)
  | st, v :: vs =>
      let (b, st') := detect_max_change st v threshold
      let (bs, stF) := detectRun threshold st' vs
      (b :: bs, stF)

/-! ## Streaming client reconnection (`src/clients/polymarket_ws.py`) -/

/-- The reconnection-relevant state of `PolymarketWebSocketClient`:
`reconnect_attempts` (0 after a successful connect), the constructor constant
`max_reconnect_attempts = 5`, and the `running` flag. -/
structure PolymarketWebSocketClient where
  reconnect_attempts : ℕ
  max_reconnect_attempts : ℕ := 5
  running : Bool
  deriving DecidableEq

/-- One entry into `PolymarketWebSocketClient._reconnect` (`polymarket_ws.py`
lines 376-413), up to its sleep: if the attempt budget is exhausted, clear
`running` and give up (`none` delay); otherwise bump the counter and back off
`min(2 ** attempts, 60)` seconds. -/
def PolymarketWebSocketClient.reconnectStep (c : PolymarketWebSocketClient) :
    PolymarketWebSocketClient × Option ℕ :=
  if c.max_reconnect_attempts ≤ c.reconnect_attempts then
    ({ c with running := false }, none)
  else
    ({ c with reconnect_attempts := c.reconnect_attempts + 1 },
     some (min (2 ^ (c.reconnect_attempts + 1)) 60))

/-! ## Engine state machine (`src/bot.py`) -/

/-- `BotState` (the members `determine_market_state` can return, plus the
others of the enum in `bot.py`). -/
inductive BotState where
  | INITIALIZING
  | SCANNING
  | POSITIONING
  | MARKET_MAKING
  | DAY_OF_MONITORING
  | WAITING_RESOLUTION
  | STOPPED
  | ERROR
  deriving DecidableEq

/-- `WeatherTradingBot.determine_market_state` (`bot.py` lines 409-439).
`market.days_until_target()` and `market.is_target_day()` both reduce to the
single abstracted quantity `days_until` (`is_target_day` is literally
`days_until_target() == 0`); the settings read are passed explicitly. -/
def determine_market_state (days_until : ℤ) (advance_days : ℤ)
    (enable_market_making : Bool) : BotState :=
  if days_until = 0 then BotState.DAY_OF_MONITORING
  else if 1 ≤ days_until ∧ days_until ≤ advance_days then
    if enable_market_making then BotState.MARKET_MAKING
    else BotState.POSITIONING
  else if days_until < 0 then BotState.WAITING_RESOLUTION
  else BotState.SCANNING

/-! ## Lemmas about `calculate_quotes` -/

lemma rtn_hundredth_intDiv (n : ℤ) :
    round_to_nearest ((n : ℚ) / 100) (1/100) = (n : ℚ) / 100 := by
  rw [round_to_nearest_hundredth]
  have h : ((n : ℚ) / 100) * 100 = (n : ℚ) := by ring
  rw [h, pyRound_intCast]

/-- The two clamp stages of `calculate_quotes` preserve strict bid/ask order. -/
lemma clamp_lt {b a : ℚ} (h : b < a) :
    max (1/100) (min (49/50) b) < max (1/50) (min (99/100) a) := by
  simp only [max_def, min_def]
  split_ifs <;> linarith

/-- Post-repair bid of `calculate_quotes`, in closed form. -/
def quoteBid (s : MarketMakerStrategy) (f sp i : ℚ) : ℚ :=
  if sp ≤ 0 then f - i * (sp/2) - s.min_spread/2
  else f - sp/2 - i * (sp/2)

/-- Post-repair ask of `calculate_quotes`, in closed form. -/
def quoteAsk (s : MarketMakerStrategy) (f sp i : ℚ) : ℚ :=
  if sp ≤ 0 then f - i * (sp/2) + s.min_spread/2
  else f + sp/2 - i * (sp/2)

lemma quoteBid_lt_quoteAsk (s : MarketMakerStrategy) (hs : 0 < s.min_spread)
    (f sp i : ℚ) : quoteBid s f sp i < quoteAsk s f sp i := by
  unfold quoteBid quoteAsk
  split_ifs with h <;> linarith

/-- `calculate_quotes` in terms of the closed forms: the first bid≥ask repair
is exactly the `sp ≤ 0` case, and with a positive `min_spread` the second
repair pass after clamping never fires. -/
lemma calculate_quotes_core (s : MarketMakerStrategy) (hs : 0 < s.min_spread)
    (f sp i : ℚ) :
    s.calculate_quotes f sp i =
      (round_to_nearest (max (1/100) (min (49/50) (quoteBid s f sp i))) (1/100),
       round_to_nearest (max (1/50) (min (99/100) (quoteAsk s f sp i))) (1/100)) := by
  have hlt := quoteBid_lt_quoteAsk s hs f sp i
  have hclamp := clamp_lt hlt
  have hcond : (f + sp/2 - i * (sp/2) ≤ f - sp/2 - i * (sp/2)) ↔ sp ≤ 0 := by
    constructor <;> intro h <;> linarith
  rcases le_or_lt sp 0 with hsp | hsp
  · simp only [quoteBid, quoteAsk, if_pos hsp] at hclamp ⊢
    simp only [MarketMakerStrategy.calculate_quotes, hcond, if_pos hsp]
    have hb : (f - sp/2 - i * (sp/2) + (f + sp/2 - i * (sp/2))) / 2 -
        s.min_spread / 2 = f - i * (sp/2) - s.min_spread/2 := by ring
    have ha : (f - sp/2 - i * (sp/2) + (f + sp/2 - i * (sp/2))) / 2 +
        s.min_spread / 2 = f - i * (sp/2) + s.min_spread/2 := by ring
    rw [hb, ha, if_neg (not_le.mpr hclamp)]
  · simp only [quoteBid, quoteAsk, if_neg (not_le.mpr hsp)] at hclamp ⊢
    simp only [MarketMakerStrategy.calculate_quotes, hcond, if_neg (not_le.mpr hsp)]
    rw [if_neg (not_le.mpr hclamp)]

/-- Evaluate `pyRound` when the fractional part is below one half. -/
lemma pyRound_of_lt_half {q : ℚ} (n : ℤ) (h1 : (n : ℚ) ≤ q)
    (h2 : q < (n : ℚ) + 1/2) : pyRound q = n := by
  have hf : ⌊q⌋ = n := Int.floor_eq_iff.mpr ⟨h1, by linarith⟩
  unfold pyRound
  rw [hf]
  have hc : q - (n : ℚ) < 1/2 := by linarith
  rw [if_pos hc]

/-- Evaluate `pyRound` when the fractional part is above one half. -/
lemma pyRound_of_gt_half {q : ℚ} (n : ℤ) (h1 : (n : ℚ) + 1/2 < q)
    (h2 : q < (n : ℚ) + 1) : pyRound q = n + 1 := by
  have hf : ⌊q⌋ = n := Int.floor_eq_iff.mpr ⟨by linarith, by linarith⟩
  unfold pyRound
  rw [hf]
  have hc1 : ¬ q - (n : ℚ) < 1/2 := by linarith
  have hc2 : (1:ℚ)/2 < q - (n : ℚ) := by linarith
  rw [if_neg hc1, if_pos hc2]

lemma rtn_one_hundredth : round_to_nearest ((1 : ℚ)/100) (1/100) = 1/100 := by
  have h := rtn_hundredth_intDiv 1
  norm_num at h
  exact h

lemma rtn_two_hundredths : round_to_nearest ((1 : ℚ)/50) (1/100) = 1/50 := by
  have h := rtn_hundredth_intDiv 2
  norm_num at h
  exact h

lemma rtn_ninety_eight : round_to_nearest ((49 : ℚ)/50) (1/100) = 49/50 := by
  have h := rtn_hundredth_intDiv 98
  norm_num at h
  exact h

lemma rtn_ninety_nine : round_to_nearest ((99 : ℚ)/100) (1/100) = 99/100 := by
  have h := rtn_hundredth_intDiv 99
  norm_num at h
  exact h

/-- With nonnegative spread, both quotes are antitone in the inventory level
(the inventory skew pushes prices down as inventory rises). -/
lemma calculate_quotes_antitone (s : MarketMakerStrategy)
    (hs : 0 < s.min_spread) (fair spread : ℚ) (hsp : 0 ≤ spread)
    {i1 i2 : ℚ} (h : i1 ≤ i2) :
    (s.calculate_quotes fair spread i2).1 ≤ (s.calculate_quotes fair spread i1).1 ∧
    (s.calculate_quotes fair spread i2).2 ≤ (s.calculate_quotes fair spread i1).2 := by
  rw [calculate_quotes_core s hs, calculate_quotes_core s hs]
  have hmul : i1 * (spread/2) ≤ i2 * (spread/2) :=
    mul_le_mul_of_nonneg_right h (by linarith)
  constructor
  · apply round_to_nearest_hundredth_mono
    apply max_le_max le_rfl
    apply min_le_min le_rfl
    unfold quoteBid
    split_ifs with h0
    · have hz : spread = 0 := le_antisymm h0 hsp
      simp [hz]
    · linarith
  · apply round_to_nearest_hundredth_mono
    apply max_le_max le_rfl
    apply min_le_min le_rfl
    unfold quoteAsk
    split_ifs with h0
    · have hz : spread = 0 := le_antisymm h0 hsp
      simp [hz]
    · linarith

/-! ## Claim C4 -/

/-- Claim C4 (amended): for every fair value, every spread, and every
`inventory_level` in [-1, 1], the pair returned by `calculate_quotes`
satisfies `bid ≤ ask` with both prices inside [0.01, 0.99].  (Equality can
occur: the final rounding of both prices to the cent may collapse a positive
gap, so the strict `bid < ask` of the original claim does not survive the
rounding.) -/
theorem calculate_quotes_bid_le_ask_bounded
    (s : MarketMakerStrategy) (hs : 0 < s.min_spread)
    (fair spread inv : ℚ) (_hi1 : -1 ≤ inv) (_hi2 : inv ≤ 1) :
    (s.calculate_quotes fair spread inv).1 ≤ (s.calculate_quotes fair spread inv).2 ∧
    1/100 ≤ (s.calculate_quotes fair spread inv).1 ∧
    (s.calculate_quotes fair spread inv).1 ≤ 99/100 ∧
    1/100 ≤ (s.calculate_quotes fair spread inv).2 ∧
    (s.calculate_quotes fair spread inv).2 ≤ 99/100 := by
  have hlt := quoteBid_lt_quoteAsk s hs fair spread inv
  have hcl := clamp_lt hlt
  rw [calculate_quotes_core s hs]
  refine ⟨round_to_nearest_hundredth_mono (le_of_lt hcl), ?_, ?_, ?_, ?_⟩
  · have h1 : (1:ℚ)/100 ≤ max (1/100) (min (49/50) (quoteBid s fair spread inv)) :=
      le_max_left _ _
    have h2 := round_to_nearest_hundredth_mono h1
    rwa [rtn_one_hundredth] at h2
  · have h1 : max (1/100) (min (49/50) (quoteBid s fair spread inv)) ≤ 49/50 :=
      max_le (by norm_num) (min_le_left _ _)
    have h2 := round_to_nearest_hundredth_mono h1
    rw [rtn_ninety_eight] at h2
    linarith
  · have h1 : (1:ℚ)/50 ≤ max (1/50) (min (99/100) (quoteAsk s fair spread inv)) :=
      le_max_left _ _
    have h2 := round_to_nearest_hundredth_mono h1
    rw [rtn_two_hundredths] at h2
    linarith
  · have h1 : max (1/50) (min (99/100) (quoteAsk s fair spread inv)) ≤ 99/100 :=
      max_le (by norm_num) (min_le_left _ _)
    have h2 := round_to_nearest_hundredth_mono h1
    rwa [rtn_ninety_nine] at h2

/-- Witness for C4 at the default configuration, fair value 1/2, spread 1/50,
zero inventory. -/
theorem calculate_quotes_bid_le_ask_bounded_witness :
    (({} : MarketMakerStrategy).calculate_quotes (1/2) (1/50) 0).1 ≤
      (({} : MarketMakerStrategy).calculate_quotes (1/2) (1/50) 0).2 ∧
    1/100 ≤ (({} : MarketMakerStrategy).calculate_quotes (1/2) (1/50) 0).1 ∧
    (({} : MarketMakerStrategy).calculate_quotes (1/2) (1/50) 0).1 ≤ 99/100 ∧
    1/100 ≤ (({} : MarketMakerStrategy).calculate_quotes (1/2) (1/50) 0).2 ∧
    (({} : MarketMakerStrategy).calculate_quotes (1/2) (1/50) 0).2 ≤ 99/100 :=
  calculate_quotes_bid_le_ask_bounded {} (by norm_num) (1/2) (1/50) 0
    (by norm_num) (by norm_num)

/-- Claim C4 counterexample to the claim as stated: at fair value 0.017, spread
0.002, zero inventory, the rounded quotes are bid = ask = 0.02, so `bid < ask`
fails on the returned pair. -/
theorem calculate_quotes_strict_cex :
    (-1 : ℚ) ≤ 0 ∧ (0 : ℚ) ≤ 1 ∧
    ({} : MarketMakerStrategy).calculate_quotes (17/1000) (1/500) 0 = (1/50, 1/50) ∧
    ¬ (({} : MarketMakerStrategy).calculate_quotes (17/1000) (1/500) 0).1 <
      (({} : MarketMakerStrategy).calculate_quotes (17/1000) (1/500) 0).2 := by
  have hcore := calculate_quotes_core ({} : MarketMakerStrategy) (by norm_num)
    (17/1000) (1/500) 0
  have hb : quoteBid ({} : MarketMakerStrategy) (17/1000) (1/500) 0 = 2/125 := by
    norm_num [quoteBid]
  have ha : quoteAsk ({} : MarketMakerStrategy) (17/1000) (1/500) 0 = 9/500 := by
    norm_num [quoteAsk]
  rw [hb, ha] at hcore
  have hcb : max (1/100 : ℚ) (min (49/50) (2/125)) = 2/125 := by
    norm_num [max_def, min_def]
  have hca : max (1/50 : ℚ) (min (99/100) (9/500)) = 1/50 := by
    norm_num [max_def, min_def]
  rw [hcb, hca] at hcore
  have hr1 : round_to_nearest (2/125 : ℚ) (1/100) = 1/50 := by
    rw [round_to_nearest_hundredth]
    have hx : (2/125 : ℚ) * 100 = 8/5 := by norm_num
    rw [hx, pyRound_of_gt_half 1 (by norm_num) (by norm_num)]
    norm_num
  rw [hr1, rtn_two_hundredths] at hcore
  exact ⟨by norm_num, by norm_num, hcore, by rw [hcore]; norm_num⟩

/-! ## Claim C5 -/

/-- Claim C5 (amended): with nonnegative spread, for every positive inventory
level both returned quotes are less than or equal to their zero-inventory
counterparts, and for every negative inventory level both are greater than or
equal.  (The original strict inequalities fail: the final rounding to the
cent can erase a small skew, and a negative spread reverses the skew.) -/
theorem calculate_quotes_skew_direction
    (s : MarketMakerStrategy) (hs : 0 < s.min_spread)
    (fair spread : ℚ) (hsp : 0 ≤ spread) (inv : ℚ) :
    (0 < inv →
      (s.calculate_quotes fair spread inv).1 ≤ (s.calculate_quotes fair spread 0).1 ∧
      (s.calculate_quotes fair spread inv).2 ≤ (s.calculate_quotes fair spread 0).2) ∧
    (inv < 0 →
      (s.calculate_quotes fair spread 0).1 ≤ (s.calculate_quotes fair spread inv).1 ∧
      (s.calculate_quotes fair spread 0).2 ≤ (s.calculate_quotes fair spread inv).2) := by
  constructor
  · intro h
    exact calculate_quotes_antitone s hs fair spread hsp (le_of_lt h)
  · intro h
    exact calculate_quotes_antitone s hs fair spread hsp (le_of_lt h)

/-- Witness for C5 at the default configuration, fair value 1/2, spread 1/50,
inventory level 1/2. -/
theorem calculate_quotes_skew_direction_witness :
    ((0 : ℚ) < 1/2 →
      (({} : MarketMakerStrategy).calculate_quotes (1/2) (1/50) (1/2)).1 ≤
        (({} : MarketMakerStrategy).calculate_quotes (1/2) (1/50) 0).1 ∧
      (({} : MarketMakerStrategy).calculate_quotes (1/2) (1/50) (1/2)).2 ≤
        (({} : MarketMakerStrategy).calculate_quotes (1/2) (1/50) 0).2) ∧
    ((1 : ℚ)/2 < 0 →
      (({} : MarketMakerStrategy).calculate_quotes (1/2) (1/50) 0).1 ≤
        (({} : MarketMakerStrategy).calculate_quotes (1/2) (1/50) (1/2)).1 ∧
      (({} : MarketMakerStrategy).calculate_quotes (1/2) (1/50) 0).2 ≤
        (({} : MarketMakerStrategy).calculate_quotes (1/2) (1/50) (1/2)).2) :=
  calculate_quotes_skew_direction {} (by norm_num) (1/2) (1/50) (by norm_num) (1/2)

/-- Claim C5 counterexample to the claim as stated: at fair value 1/2, spread
1/50, inventory level 1/10 > 0, both rounded quotes are exactly equal to the
zero-inventory quotes (0.49, 0.51), so "strictly less" fails. -/
theorem calculate_quotes_skew_strict_cex :
    (0 : ℚ) < 1/10 ∧
    ({} : MarketMakerStrategy).calculate_quotes (1/2) (1/50) (1/10) =
      ({} : MarketMakerStrategy).calculate_quotes (1/2) (1/50) 0 ∧
    ({} : MarketMakerStrategy).calculate_quotes (1/2) (1/50) 0 = (49/100, 51/100) := by
  have hc1 := calculate_quotes_core ({} : MarketMakerStrategy) (by norm_num)
    (1/2) (1/50) (1/10)
  have hc0 := calculate_quotes_core ({} : MarketMakerStrategy) (by norm_num)
    (1/2) (1/50) 0
  have hb1 : quoteBid ({} : MarketMakerStrategy) (1/2) (1/50) (1/10) = 489/1000 := by
    norm_num [quoteBid]
  have ha1 : quoteAsk ({} : MarketMakerStrategy) (1/2) (1/50) (1/10) = 509/1000 := by
    norm_num [quoteAsk]
  have hb0 : quoteBid ({} : MarketMakerStrategy) (1/2) (1/50) 0 = 49/100 := by
    norm_num [quoteBid]
  have ha0 : quoteAsk ({} : MarketMakerStrategy) (1/2) (1/50) 0 = 51/100 := by
    norm_num [quoteAsk]
  rw [hb1, ha1] at hc1
  rw [hb0, ha0] at hc0
  have e1 : max (1/100 : ℚ) (min (49/50) (489/1000)) = 489/1000 := by
    norm_num [max_def, min_def]
  have e2 : max (1/50 : ℚ) (min (99/100) (509/1000)) = 509/1000 := by
    norm_num [max_def, min_def]
  have e3 : max (1/100 : ℚ) (min (49/50) (49/100)) = 49/100 := by
    norm_num [max_def, min_def]
  have e4 : max (1/50 : ℚ) (min (99/100) (51/100)) = 51/100 := by
    norm_num [max_def, min_def]
  rw [e1, e2] at hc1
  rw [e3, e4] at hc0
  have r1 : round_to_nearest (489/1000 : ℚ) (1/100) = 49/100 := by
    rw [round_to_nearest_hundredth]
    have hx : (489/1000 : ℚ) * 100 = 489/10 := by norm_num
    rw [hx, pyRound_of_gt_half 48 (by norm_num) (by norm_num)]
    norm_num
  have r2 : round_to_nearest (509/1000 : ℚ) (1/100) = 51/100 := by
    rw [round_to_nearest_hundredth]
    have hx : (509/1000 : ℚ) * 100 = 509/10 := by norm_num
    rw [hx, pyRound_of_gt_half 50 (by norm_num) (by norm_num)]
    norm_num
  have r3 : round_to_nearest (49/100 : ℚ) (1/100) = 49/100 := by
    rw [round_to_nearest_hundredth]
    have hx : (49/100 : ℚ) * 100 = ((49 : ℤ) : ℚ) := by norm_num
    rw [hx, pyRound_intCast]
    norm_num
  have r4 : round_to_nearest (51/100 : ℚ) (1/100) = 51/100 := by
    rw [round_to_nearest_hundredth]
    have hx : (51/100 : ℚ) * 100 = ((51 : ℤ) : ℚ) := by norm_num
    rw [hx, pyRound_intCast]
    norm_num
  rw [r1, r2] at hc1
  rw [r3, r4] at hc0
  exact ⟨by norm_num, by rw [hc1, hc0], hc0⟩

/-! ## Claim C10 -/

/-- Claim C10: `get_inventory_level` is total and returns a value in [-1, 1];
with `max_inventory = 0` the division is guarded and the result is exactly 0,
and otherwise the result is the normalized ratio clamped to [-1, 1]. -/
theorem get_inventory_level_total_bounded (s : MarketMakerStrategy)
    (inventory : List (ℕ × ℚ)) (outcome_id : ℕ) :
    (-1 ≤ s.get_inventory_level inventory outcome_id ∧
      s.get_inventory_level inventory outcome_id ≤ 1) ∧
    (s.max_inventory = 0 → s.get_inventory_level inventory outcome_id = 0) ∧
    (s.max_inventory ≠ 0 → s.get_inventory_level inventory outcome_id =
      max (-1) (min 1 (((inventory.lookup outcome_id).getD 0) / s.max_inventory))) := by
  unfold MarketMakerStrategy.get_inventory_level
  refine ⟨?_, ?_, ?_⟩
  · split_ifs with h
    · norm_num
    · exact ⟨le_max_left _ _, max_le (by norm_num) (min_le_left _ _)⟩
  · intro h
    rw [if_pos h]
  · intro h
    rw [if_neg h]

/-- Witness for C10 at the default configuration with inventory {0 ↦ 250}. -/
theorem get_inventory_level_total_bounded_witness :
    ((-1 ≤ ({} : MarketMakerStrategy).get_inventory_level [(0, 250)] 0 ∧
      ({} : MarketMakerStrategy).get_inventory_level [(0, 250)] 0 ≤ 1) ∧
    (({} : MarketMakerStrategy).max_inventory = 0 →
      ({} : MarketMakerStrategy).get_inventory_level [(0, 250)] 0 = 0) ∧
    (({} : MarketMakerStrategy).max_inventory ≠ 0 →
      ({} : MarketMakerStrategy).get_inventory_level [(0, 250)] 0 =
        max (-1) (min 1 ((([(0, 250)].lookup 0).getD 0) /
          ({} : MarketMakerStrategy).max_inventory)))) :=
  get_inventory_level_total_bounded {} [(0, 250)] 0

/-! ## Claim C6 -/

/-- Claim C6: `check_circuit_breakers` returns `True` and sets the stopped flag
exactly when daily P&L — (cash balance + mark-to-market position value) minus
the session-start total — falls below `-max_daily_loss`; an inventory breach
alone yields `False` with the stopped flag unchanged. -/
theorem check_circuit_breakers_spec (s : MarketMakerStrategy)
    (current_balance : ℚ) (positions : List Position)
    (session_start_balance : ℚ) (inventory : List (ℕ × ℚ)) (stopped : Bool) :
    s.check_circuit_breakers current_balance positions session_start_balance
        inventory stopped =
      (decide (current_balance + (positions.map Position.current_value).sum -
          session_start_balance < -s.max_daily_loss),
       (decide (current_balance + (positions.map Position.current_value).sum -
          session_start_balance < -s.max_daily_loss) || stopped),
       current_balance + (positions.map Position.current_value).sum -
          session_start_balance) ∧
    (∀ oid sh, (oid, sh) ∈ inventory → s.max_inventory < sh →
      -s.max_daily_loss ≤ current_balance +
        (positions.map Position.current_value).sum - session_start_balance →
      (s.check_circuit_breakers current_balance positions
        session_start_balance inventory stopped).1 = false ∧
      (s.check_circuit_breakers current_balance positions
        session_start_balance inventory stopped).2.1 = stopped) := by
  have hmain : s.check_circuit_breakers current_balance positions
      session_start_balance inventory stopped =
      (decide (current_balance + (positions.map Position.current_value).sum -
          session_start_balance < -s.max_daily_loss),
       (decide (current_balance + (positions.map Position.current_value).sum -
          session_start_balance < -s.max_daily_loss) || stopped),
       current_balance + (positions.map Position.current_value).sum -
          session_start_balance) := by
    unfold MarketMakerStrategy.check_circuit_breakers
    by_cases h1 : current_balance + (positions.map Position.current_value).sum -
        session_start_balance < -s.max_daily_loss
    · simp [h1]
    · simp [h1, ite_self]
  refine ⟨hmain, ?_⟩
  intro oid sh _hmem _hgt hge
  have hnot : ¬ current_balance + (positions.map Position.current_value).sum -
      session_start_balance < -s.max_daily_loss := not_lt.mpr hge
  rw [hmain]
  simp [hnot]

/-- Witness for C6: balance 100, no positions, start 0, one inventory entry of
600 shares (over the default 500 cap), not stopped — the inventory breach
alone returns `False` and leaves the flag unchanged. -/
theorem check_circuit_breakers_spec_witness :
    (({} : MarketMakerStrategy).check_circuit_breakers 100 [] 0 [(0, 600)]
        false).1 = false ∧
    (({} : MarketMakerStrategy).check_circuit_breakers 100 [] 0 [(0, 600)]
        false).2.1 = false :=
  (check_circuit_breakers_spec {} 100 [] 0 [(0, 600)] false).2 0 600
    (by simp) (by norm_num) (by norm_num)

/-! ## Claim C7 -/

/-- Claim C7: the reconnection delay for attempts 1..5 is exactly 2, 4, 8, 16,
32 seconds, computed as `min(2 ** attempt, 60)` and hence never above 60;
once the attempt count has reached `max_reconnect_attempts = 5`, a further
`_reconnect` call clears `running` and yields no delay (permanent stop). -/
theorem reconnect_backoff_spec (c : PolymarketWebSocketClient)
    (hmax : c.max_reconnect_attempts = 5) :
    (c.reconnect_attempts < 5 →
      c.reconnectStep =
        ({ c with reconnect_attempts := c.reconnect_attempts + 1 },
         some (2 ^ (c.reconnect_attempts + 1)))) ∧
    ((List.range 5).map (fun k => min (2 ^ (k + 1)) 60) = [2, 4, 8, 16, 32]) ∧
    (∀ n : ℕ, min (2 ^ n) 60 ≤ 60) ∧
    (5 ≤ c.reconnect_attempts →
      c.reconnectStep = ({ c with running := false }, none)) := by
  refine ⟨?_, by decide, fun n => min_le_right _ _, ?_⟩
  · intro h
    have hp : 2 ^ (c.reconnect_attempts + 1) ≤ 60 :=
      le_trans (Nat.pow_le_pow_right (by norm_num)
        (by omega : c.reconnect_attempts + 1 ≤ 5)) (by norm_num)
    have hcond : ¬ c.max_reconnect_attempts ≤ c.reconnect_attempts := by omega
    unfold PolymarketWebSocketClient.reconnectStep
    rw [if_neg hcond, min_eq_left hp]
  · intro h
    have hcond : c.max_reconnect_attempts ≤ c.reconnect_attempts := by omega
    unfold PolymarketWebSocketClient.reconnectStep
    rw [if_pos hcond]

/-- Witness for C7 on a fresh client (0 attempts, running). -/
theorem reconnect_backoff_spec_witness :
    (((⟨0, 5, true⟩ : PolymarketWebSocketClient).reconnect_attempts < 5 →
      (⟨0, 5, true⟩ : PolymarketWebSocketClient).reconnectStep =
        ({ (⟨0, 5, true⟩ : PolymarketWebSocketClient) with
            reconnect_attempts :=
              (⟨0, 5, true⟩ : PolymarketWebSocketClient).reconnect_attempts + 1 },
         some (2 ^ ((⟨0, 5, true⟩ : PolymarketWebSocketClient).reconnect_attempts + 1)))) ∧
    ((List.range 5).map (fun k => min (2 ^ (k + 1)) 60) = [2, 4, 8, 16, 32]) ∧
    (∀ n : ℕ, min (2 ^ n) 60 ≤ 60) ∧
    (5 ≤ (⟨0, 5, true⟩ : PolymarketWebSocketClient).reconnect_attempts →
      (⟨0, 5, true⟩ : PolymarketWebSocketClient).reconnectStep =
        ({ (⟨0, 5, true⟩ : PolymarketWebSocketClient) with running := false },
         none))) :=
  reconnect_backoff_spec ⟨0, 5, true⟩ rfl

/-! ## Claim C8 -/

/-- Claim C8: `determine_market_state` returns DAY_OF_MONITORING when
days-until-target is 0 (highest priority), MARKET_MAKING when the day count is
in [1, advance_days] and market making is enabled — POSITIONING in that window
otherwise —, WAITING_RESOLUTION for negative day counts, and SCANNING in every
remaining case. -/
theorem determine_market_state_spec (d adv : ℤ) (mm : Bool) :
    (d = 0 → determine_market_state d adv mm = BotState.DAY_OF_MONITORING) ∧
    (1 ≤ d → d ≤ adv → determine_market_state d adv mm =
      (if mm then BotState.MARKET_MAKING else BotState.POSITIONING)) ∧
    (d < 0 → determine_market_state d adv mm = BotState.WAITING_RESOLUTION) ∧
    (d ≠ 0 → ¬(1 ≤ d ∧ d ≤ adv) → 0 ≤ d →
      determine_market_state d adv mm = BotState.SCANNING) := by
  refine ⟨?_, ?_, ?_, ?_⟩
  · intro h
    unfold determine_market_state
    rw [if_pos h]
  · intro h1 h2
    unfold determine_market_state
    rw [if_neg (by omega), if_pos ⟨h1, h2⟩]
  · intro h
    unfold determine_market_state
    rw [if_neg (by omega), if_neg (by omega), if_pos h]
  · intro h1 h2 h3
    unfold determine_market_state
    rw [if_neg h1, if_neg h2, if_neg (by omega)]

/-- Witness for C8 at the target day with advance window 3 and market making
enabled. -/
theorem determine_market_state_spec_witness :
    ((0 : ℤ) = 0 → determine_market_state 0 3 true = BotState.DAY_OF_MONITORING) ∧
    ((1 : ℤ) ≤ 0 → (0 : ℤ) ≤ 3 → determine_market_state 0 3 true =
      (if true then BotState.MARKET_MAKING else BotState.POSITIONING)) ∧
    ((0 : ℤ) < 0 → determine_market_state 0 3 true = BotState.WAITING_RESOLUTION) ∧
    ((0 : ℤ) ≠ 0 → ¬((1 : ℤ) ≤ 0 ∧ (0 : ℤ) ≤ 3) → (0 : ℤ) ≤ 0 →
      determine_market_state 0 3 true = BotState.SCANNING) :=
  determine_market_state_spec 0 3 true

/-! ## Claim C2 -/

/-- Claim C2: with threshold 0.5, the very first `detect_max_change` call
returns `False` and only seeds `previous_max`; every later call returns
`True` exactly when `|new_max - previous_max| ≥ 0.5` (the boundary counts),
and `previous_max` is replaced by `new_max` exactly on the calls that return
`True`.  Consequently the first element of any run started from the unseeded
state is `False`. -/
theorem detect_max_change_spec (v p : ℚ) (vs : List ℚ) :
    detect_max_change none v (1/2) = (false, some v) ∧
    (detect_max_change (some p) v (1/2)).1 = decide ((1:ℚ)/2 ≤ |v - p|) ∧
    (detect_max_change (some p) v (1/2)).2 =
      (if (1:ℚ)/2 ≤ |v - p| then some v else some p) ∧
    (detectRun (1/2) none (v :: vs)).1.head? = some false := by
  refine ⟨rfl, ?_, ?_, ?_⟩
  · simp only [detect_max_change]
    split_ifs with h
    · simp [h]
      linarith
    · simp [h]
      push_neg at h
      linarith
  · simp only [detect_max_change]
    split_ifs with h <;> rfl
  · simp [detectRun, detect_max_change]

/-! ## Claim C1 -/

/-- Claim C1 (amended): when the backing outcome's range no longer contains the
forecast temperature, `should_adjust_position` returns a market-kind SELL
order liquidating the full position, sized at the position's full USDC
notional `shares * current_price` (not at the raw share count); when the
range still contains the forecast it returns nothing. -/
theorem should_adjust_position_spec (s : PositionTakerStrategy)
    (position : Position) (market : TemperatureMarket)
    (forecast : WeatherForecast) (o : PolymarketOutcome)
    (ho : market.get_outcome_by_token_id position.outcome_id = some o) :
    (o.temperature_range.contains forecast.max_temperature = true →
      s.should_adjust_position position market forecast = none) ∧
    (o.temperature_range.contains forecast.max_temperature = false →
      s.should_adjust_position position market forecast =
        some { market_id := position.market_id
               outcome_id := position.outcome_id
               side := OrderSide.SELL
               size := position.shares * position.current_price
               price := position.current_price
               order_type := OrderType.MARKET }) := by
  constructor
  · intro h
    simp [PositionTakerStrategy.should_adjust_position, ho, h]
  · intro h
    simp [PositionTakerStrategy.should_adjust_position, ho, h]

/-- Concrete position for the C1 scenario: 10 shares on outcome `62-63`
bought at 0.30, now priced 0.50. -/
def c1Position : Position :=
  { market_id := 1, outcome_id := 7, shares := 10, avg_entry_price := 3/10,
    current_price := 1/2 }

/-- Outcome `62-63` at price 0.30 backing the C1 scenario position. -/
def c1Outcome : PolymarketOutcome :=
  { token_id := 7, price := 3/10,
    temperature_range :=
      { label := ['6', '2', '-', '6', '3'], min_temp := some 62,
        max_temp := some 63 } }

/-- One-outcome market for the C1 scenario. -/
def c1Market : TemperatureMarket :=
  { market_id := 1, outcomes := [c1Outcome] }

/-- New forecast for the C1 scenario: 67 °F, outside `62-63`. -/
def c1Forecast : WeatherForecast :=
  { max_temperature := 67, confidence := 17/20 }

/-- Witness for C1: the scenario position is liquidated with a market sell of
notional 10 × 0.50. -/
theorem should_adjust_position_spec_witness :
    ((c1Outcome.temperature_range.contains c1Forecast.max_temperature = true →
      PositionTakerStrategy.should_adjust_position {} c1Position c1Market
        c1Forecast = none) ∧
    (c1Outcome.temperature_range.contains c1Forecast.max_temperature = false →
      PositionTakerStrategy.should_adjust_position {} c1Position c1Market
        c1Forecast =
        some { market_id := c1Position.market_id
               outcome_id := c1Position.outcome_id
               side := OrderSide.SELL
               size := c1Position.shares * c1Position.current_price
               price := c1Position.current_price
               order_type := OrderType.MARKET })) :=
  should_adjust_position_spec {} c1Position c1Market c1Forecast c1Outcome
    (by simp [c1Market, c1Position, c1Outcome,
      TemperatureMarket.get_outcome_by_token_id, List.find?])

/-- Claim C1 counterexample to the claim as stated: in the scenario the sell
order's size is 5 (= 10 shares × price 0.50, the USDC notional), not the full
share count 10. -/
theorem should_adjust_position_size_cex :
    (PositionTakerStrategy.should_adjust_position {} c1Position c1Market
      c1Forecast).map Order.size = some 5 ∧
    (PositionTakerStrategy.should_adjust_position {} c1Position c1Market
      c1Forecast).map Order.side = some OrderSide.SELL ∧
    (PositionTakerStrategy.should_adjust_position {} c1Position c1Market
      c1Forecast).map Order.order_type = some OrderType.MARKET ∧
    c1Position.shares = 10 ∧ (5 : ℚ) ≠ 10 := by
  have hres : PositionTakerStrategy.should_adjust_position {} c1Position
      c1Market c1Forecast =
      some { market_id := 1, outcome_id := 7, side := OrderSide.SELL,
             size := 5, price := 1/2, order_type := OrderType.MARKET } := by
    norm_num [PositionTakerStrategy.should_adjust_position, c1Market,
      c1Position, c1Outcome, c1Forecast,
      TemperatureMarket.get_outcome_by_token_id, List.find?,
      TemperatureRange.contains]
  rw [hres]
  refine ⟨rfl, rfl, rfl, rfl, by norm_num⟩

/-! ## Claim C9 -/

/-- A range with both bounds absent contains every temperature. -/
lemma contains_true_of_no_bounds (r : TemperatureRange)
    (h1 : r.min_temp = none) (h2 : r.max_temp = none) (t : ℚ) :
    r.contains t = true := by
  unfold TemperatureRange.contains
  rw [h1, h2]
  rfl

/-- `find?` semantics behind `get_outcome_by_temperature`: if the outcome at
index `i` has no bounds and no earlier outcome contains `t`, the scan stops at
index `i`. -/
lemma find_catch_all (l : List PolymarketOutcome) (i : ℕ)
    (hi : i < l.length) (t : ℚ)
    (hmin : (l.get ⟨i, hi⟩).temperature_range.min_temp = none)
    (hmax : (l.get ⟨i, hi⟩).temperature_range.max_temp = none)
    (hbefore : ∀ j (hj : j < l.length), j < i →
      (l.get ⟨j, hj⟩).temperature_range.contains t = false) :
    l.find? (fun o => o.temperature_range.contains t) = some (l.get ⟨i, hi⟩) := by
  induction l generalizing i with
  | nil => exact absurd hi (Nat.not_lt_zero i)
  | cons a l ih =>
    cases i with
    | zero =>
        have h : a.temperature_range.contains t = true :=
          contains_true_of_no_bounds _ hmin hmax t
        simp [List.find?, h]
    | succ i' =>
        have h0 : a.temperature_range.contains t = false :=
          hbefore 0 (Nat.succ_pos _) (Nat.succ_pos _)
        simp only [List.find?, h0, List.get_cons_succ] at *
        exact ih i' (Nat.lt_of_succ_lt_succ hi) hmin hmax
          (fun j hj hlt => hbefore (j + 1) (Nat.succ_lt_succ hj)
            (Nat.succ_lt_succ hlt))

/-- Claim C9 (amended): a `TemperatureRange` with both bounds absent — which
`from_label` produces whenever none of its three patterns matches — contains
every temperature; `get_outcome_by_temperature` therefore maps any temperature
that no earlier outcome contains to the first such catch-all outcome (a
temperature contained in an earlier outcome's range maps to that earlier
outcome instead), so outcome ranges are not guaranteed mutually exclusive at
the public interface. -/
theorem catch_all_range_spec :
    (∀ (lab : List Char) (t : ℚ),
      TemperatureRange.contains ⟨lab, none, none⟩ t = true) ∧
    (∀ lab : List Char,
      firstMatchPos rangeAt (stripWs lab) = none →
      firstMatchPos higherAt (stripWs lab) = none →
      firstMatchPos lowerAt (stripWs lab) = none →
      TemperatureRange.from_label lab = ⟨stripWs lab, none, none⟩) ∧
    (∀ (m : TemperatureMarket) (i : ℕ) (hi : i < m.outcomes.length) (t : ℚ),
      (m.outcomes.get ⟨i, hi⟩).temperature_range.min_temp = none →
      (m.outcomes.get ⟨i, hi⟩).temperature_range.max_temp = none →
      (∀ j (hj : j < m.outcomes.length), j < i →
        (m.outcomes.get ⟨j, hj⟩).temperature_range.contains t = false) →
      m.get_outcome_by_temperature t = some (m.outcomes.get ⟨i, hi⟩)) ∧
    (∃ r1 r2 : TemperatureRange, ∃ t : ℚ, r1 ≠ r2 ∧
      r1.contains t = true ∧ r2.contains t = true) := by
  refine ⟨?_, ?_, ?_, ?_⟩
  · intro lab t
    exact contains_true_of_no_bounds _ rfl rfl t
  · intro lab h1 h2 h3
    simp [TemperatureRange.from_label, h1, h2, h3]
  · intro m i hi t hmin hmax hbefore
    exact find_catch_all m.outcomes i hi t hmin hmax hbefore
  · refine ⟨⟨['6', '2', '-', '6', '3'], some 62, some 63⟩, ⟨[], none, none⟩,
      125/2, by simp, ?_, contains_true_of_no_bounds _ rfl rfl _⟩
    norm_num [TemperatureRange.contains]

/-- Catch-all outcome (unparseable label) used in the C9 market. -/
def c9Catch : PolymarketOutcome :=
  { token_id := 21, price := 1/10,
    temperature_range := TemperatureRange.from_label ['N', '/', 'A'] }

/-- Bounded `62-63` outcome used in the C9 market. -/
def c9Range : PolymarketOutcome :=
  { token_id := 20, price := 3/10,
    temperature_range :=
      { label := ['6', '2', '-', '6', '3'], min_temp := some 62,
        max_temp := some 63 } }

/-- Market whose second outcome is a catch-all. -/
def c9Market : TemperatureMarket :=
  { market_id := 9, outcomes := [c9Range, c9Catch] }

/-- Witness for C9: the label `N/A` parses to a bound-less range, and in a
market `[62-63, N/A]` the temperature 70 (outside `62-63`) maps to the
catch-all. -/
theorem catch_all_range_spec_witness :
    TemperatureRange.contains ⟨['N', '/', 'A'], none, none⟩ 70 = true ∧
    TemperatureRange.from_label ['N', '/', 'A'] =
      ⟨stripWs ['N', '/', 'A'], none, none⟩ ∧
    c9Market.get_outcome_by_temperature 70 =
      some (c9Market.outcomes.get ⟨1, by decide⟩) :=
  ⟨catch_all_range_spec.1 ['N', '/', 'A'] 70,
   catch_all_range_spec.2.1 ['N', '/', 'A'] (by decide) (by decide) (by decide),
   catch_all_range_spec.2.2.1 c9Market 1 (by decide) 70 (by decide) (by decide)
     (fun j hj hlt => by
       have hj0 : j = 0 := by omega
       subst hj0
       norm_num [c9Market, c9Range, TemperatureRange.contains])⟩

/-- Claim C9 counterexample to the claim as stated: in the market `[62-63, N/A]`
the temperature 62.5 does *not* map to the (first and only) bound-less
outcome — it maps to the earlier bounded `62-63` outcome, because
`get_outcome_by_temperature` returns the first containing outcome in list
order. -/
theorem catch_all_first_cex :
    c9Market.get_outcome_by_temperature (125/2) = some c9Range ∧
    c9Range.temperature_range.min_temp = some 62 ∧
    c9Catch.temperature_range.min_temp = none ∧
    c9Catch.temperature_range.max_temp = none ∧
    c9Range ≠ c9Catch := by
  refine ⟨?_, rfl, by decide, by decide, by decide⟩
  norm_num [c9Market, c9Range, c9Catch, TemperatureMarket.get_outcome_by_temperature,
    List.find?, TemperatureRange.contains]

/-! ## Claim C3 -/

lemma scal_pos (d : ℕ) : 0 < max (1/2 : ℚ) (1 - (d : ℚ) * (1/10)) :=
  lt_of_lt_of_le (by norm_num) (le_max_left _ _)

lemma scal_le_one (d : ℕ) : max (1/2 : ℚ) (1 - (d : ℚ) * (1/10)) ≤ 1 := by
  apply max_le (by norm_num)
  have h : (0:ℚ) ≤ (d:ℚ) := Nat.cast_nonneg d
  linarith

lemma scal_antitone {d1 d2 : ℕ} (h : d1 ≤ d2) :
    max (1/2 : ℚ) (1 - (d2 : ℚ) * (1/10)) ≤
    max (1/2 : ℚ) (1 - (d1 : ℚ) * (1/10)) := by
  apply max_le_max le_rfl
  have hc : (d1 : ℚ) ≤ (d2 : ℚ) := by exact_mod_cast h
  linarith

/-- The clamped-then-scaled-then-rounded size never exceeds a nonnegative cap
that is a fixed point of the two-decimal rounding. -/
lemma pipeline_le_cap {C M : ℚ} (hCM : C ≤ M) (hM : 0 ≤ M)
    (hfix : round2 M = M) (d : ℕ) :
    max 0 (round2 (C * max (1/2) (1 - (d : ℚ) * (1/10)))) ≤ M := by
  have hs1 := scal_le_one d
  have hs0 := scal_pos d
  have hprod : C * max (1/2) (1 - (d : ℚ) * (1/10)) ≤ M := by
    rcases le_or_lt 0 C with h | h
    · have := mul_le_mul_of_nonneg_left hs1 h
      nlinarith
    · nlinarith [mul_neg_of_neg_of_pos h hs0]
  have hr := round2_mono hprod
  rw [hfix] at hr
  exact max_le hM hr

/-- The final size exceeds the (possibly negative) remaining headroom by at
most the rounding quantum 1/200, after flooring the headroom at zero. -/
lemma pipeline_le_headroom {C rem : ℚ} (hC : C ≤ rem) (d : ℕ) :
    max 0 (round2 (C * max (1/2) (1 - (d : ℚ) * (1/10)))) ≤
      max 0 rem + 1/200 := by
  have hs1 := scal_le_one d
  have hs0 := scal_pos d
  have hmax : (0:ℚ) ≤ max 0 rem := le_max_left _ _
  have hprod : C * max (1/2) (1 - (d : ℚ) * (1/10)) ≤ max 0 rem := by
    rcases le_or_lt 0 C with h | h
    · have h1 := mul_le_mul_of_nonneg_left hs1 h
      have h2 : rem ≤ max 0 rem := le_max_right _ _
      nlinarith
    · nlinarith [mul_neg_of_neg_of_pos h hs0]
  have hr := round2_le (C * max (1/2) (1 - (d : ℚ) * (1/10)))
  exact max_le (by linarith) (by linarith)

/-- The final size is antitone in `days_ahead`. -/
lemma pipeline_antitone {C : ℚ} {d1 d2 : ℕ} (h : d1 ≤ d2) :
    max 0 (round2 (C * max (1/2) (1 - (d2 : ℚ) * (1/10)))) ≤
    max 0 (round2 (C * max (1/2) (1 - (d1 : ℚ) * (1/10)))) := by
  have hscal := scal_antitone h
  rcases le_or_lt 0 C with hC | hC
  · exact max_le_max le_rfl (round2_mono (mul_le_mul_of_nonneg_left hscal hC))
  · have h2 : C * max (1/2) (1 - (d2 : ℚ) * (1/10)) ≤ 0 :=
      le_of_lt (mul_neg_of_neg_of_pos hC (scal_pos d2))
    have h1 : C * max (1/2) (1 - (d1 : ℚ) * (1/10)) ≤ 0 :=
      le_of_lt (mul_neg_of_neg_of_pos hC (scal_pos d1))
    rw [max_eq_left (round2_nonpos h2), max_eq_left (round2_nonpos h1)]

lemma round2_hundred : round2 (100 : ℚ) = 100 := by
  exact_mod_cast round2_intCast 100

/-- `_calculate_position_size` at the default configuration, outside the
confidence guard, in closed form. -/
lemma calculate_position_size_eq (balance edge confidence : ℚ) (d : ℕ)
    (exposure : ℚ) (hc : ¬(confidence ≤ 0 ∨ 1 ≤ confidence)) :
    PositionTakerStrategy.calculate_position_size {} balance edge confidence
      d exposure =
    max 0 (round2 ((min (min (balance * calculate_kelly_criterion edge
      (if 0 < confidence then 1/confidence else 1) (1/4)) 100)
      (200 - exposure)) * max (1/2) (1 - (d : ℚ) * (1/10)))) := by
  simp only [PositionTakerStrategy.calculate_position_size, if_neg hc]

/-- Claim C3 (amended): at the default configuration, for every balance, edge,
confidence, exposure and (nonnegative) `days_ahead`, the computed size never
exceeds `max_position_size = 100`; it exceeds the per-market exposure headroom
(floored at zero) by at most the final-rounding quantum 0.005; and it is
weakly decreasing — not strictly decreasing — in `days_ahead`. -/
theorem calculate_position_size_limits (balance edge confidence : ℚ)
    (days_ahead : ℕ) (current_exposure : ℚ) :
    PositionTakerStrategy.calculate_position_size {} balance edge confidence
      days_ahead current_exposure ≤ 100 ∧
    PositionTakerStrategy.calculate_position_size {} balance edge confidence
      days_ahead current_exposure ≤ max 0 (200 - current_exposure) + 1/200 ∧
    (∀ d2 : ℕ, days_ahead ≤ d2 →
      PositionTakerStrategy.calculate_position_size {} balance edge confidence
        d2 current_exposure ≤
      PositionTakerStrategy.calculate_position_size {} balance edge confidence
        days_ahead current_exposure) := by
  by_cases hc : confidence ≤ 0 ∨ 1 ≤ confidence
  · have h0 : ∀ d : ℕ, PositionTakerStrategy.calculate_position_size {}
        balance edge confidence d current_exposure = 0 := fun d => by
      simp only [PositionTakerStrategy.calculate_position_size, if_pos hc]
    have hmax : (0:ℚ) ≤ max 0 (200 - current_exposure) := le_max_left _ _
    refine ⟨by rw [h0]; norm_num, by rw [h0]; linarith,
      fun d2 _ => by rw [h0, h0]⟩
  · have heq := fun d => calculate_position_size_eq balance edge confidence d
      current_exposure hc
    have hCle100 : min (min (balance * calculate_kelly_criterion edge
        (if 0 < confidence then 1/confidence else 1) (1/4)) 100)
        (200 - current_exposure) ≤ 100 :=
      le_trans (min_le_left _ _) (min_le_right _ _)
    have hClerem : min (min (balance * calculate_kelly_criterion edge
        (if 0 < confidence then 1/confidence else 1) (1/4)) 100)
        (200 - current_exposure) ≤ 200 - current_exposure :=
      min_le_right _ _
    refine ⟨?_, ?_, ?_⟩
    · rw [heq]
      exact pipeline_le_cap hCle100 (by norm_num) round2_hundred days_ahead
    · rw [heq]
      exact pipeline_le_headroom hClerem days_ahead
    · intro d2 hd
      rw [heq, heq]
      exact pipeline_antitone hd

/-- Witness for C3: balance 1000, edge 0.1, confidence 0.8, exposure 0;
monotonicity instantiated from day 0 to day 1. -/
theorem calculate_position_size_limits_witness :
    PositionTakerStrategy.calculate_position_size {} 1000 (1/10) (4/5) 0 0 ≤ 100 ∧
    PositionTakerStrategy.calculate_position_size {} 1000 (1/10) (4/5) 0 0 ≤
      max 0 (200 - 0) + 1/200 ∧
    PositionTakerStrategy.calculate_position_size {} 1000 (1/10) (4/5) 1 0 ≤
      PositionTakerStrategy.calculate_position_size {} 1000 (1/10) (4/5) 0 0 :=
  ⟨(calculate_position_size_limits 1000 (1/10) (4/5) 0 0).1,
   (calculate_position_size_limits 1000 (1/10) (4/5) 0 0).2.1,
   (calculate_position_size_limits 1000 (1/10) (4/5) 0 0).2.2 1 (by decide)⟩

/-- Claim C3 counterexample to the claim as stated: with balance 1000, edge 0.1,
confidence 0.8, zero exposure, the sizes at `days_ahead = 5` and
`days_ahead = 6` are both exactly 50 — the time-decay factor saturates at 0.5
— so the size does not strictly decrease as `days_ahead` increases. -/
theorem calculate_position_size_strict_cex :
    PositionTakerStrategy.calculate_position_size {} 1000 (1/10) (4/5) 5 0 =
      PositionTakerStrategy.calculate_position_size {} 1000 (1/10) (4/5) 6 0 ∧
    PositionTakerStrategy.calculate_position_size {} 1000 (1/10) (4/5) 5 0 = 50 ∧
    (5 : ℕ) < 6 := by
  have h50 : round2 (50 : ℚ) = 50 := by exact_mod_cast round2_intCast 50
  have e5 : PositionTakerStrategy.calculate_position_size {} 1000 (1/10)
      (4/5) 5 0 = 50 := by
    rw [calculate_position_size_eq _ _ _ _ _ (by norm_num)]
    norm_num [calculate_kelly_criterion, min_def, max_def, h50]
  have e6 : PositionTakerStrategy.calculate_position_size {} 1000 (1/10)
      (4/5) 6 0 = 50 := by
    rw [calculate_position_size_eq _ _ _ _ _ (by norm_num)]
    norm_num [calculate_kelly_criterion, min_def, max_def, h50]
  exact ⟨e5.trans e6.symm, e5, by norm_num⟩

end PolyWeather
